import Mathlib

/-!
Verification of the Meridian_Triptych_AV repository (`src/receive_distance.py`,
`src/test_midi.py`): a proximity-triggered MIDI playback scheduler.

This file gives a shallow embedding of the scheduling core of
`receive_distance.py`:

* the track catalog construction (`_extract_note_from_filename`,
  `_create_note_mapping`),
* the playback scheduler (`MIDITrackTrigger`: `queue_random_track`,
  `_trigger_track`, `_track_finished`, `_reset_empty_queue_timer`,
  `_auto_queue_track`, `close`) as a pure step function over an explicit
  state, with timer firings modelled as events of a trace,
* the presence detector embedded in `main`'s loop (threshold + cooldown
  debouncing of distance samples).

Python floats (durations, timestamps, distances) are modelled as rationals;
Python ints as `Int`/`Nat`.  `random.choice` over the catalog keys is
modelled by an injected index.  The mutual-exclusion lock of the scheduler
is relevant in exactly one place: `_auto_queue_track` acquires `self.lock`
and then calls `queue_random_track`, which attempts to acquire the same
non-reentrant `threading.Lock` again; the nested acquisition blocks
forever.  We model that as a `frozen` flag: once set, no lock-guarded
operation can complete, so the state never changes again.
-/

namespace Meridian

/-! ### Configuration constants (receive_distance.py lines 24-32) -/

def PROXIMITY_THRESHOLD : ℚ := 100

def DETECTION_COOLDOWN : ℚ := 5

def TRACK_DELAY : ℚ := 300

def MAX_QUEUED_TRACKS : Int := 2

def EMPTY_QUEUE_TIMEOUT : ℚ := 1200

/-! ### Association-list helpers (Python `dict` as insertion-ordered map) -/

def alistGet {κ α : Type} [DecidableEq κ] (k : κ) : List (κ × α) → Option α
  | [] => none
  | (k₀, v) :: rest => if k₀ = k then some v else alistGet k rest

/-- Python `del d[k]` / overwrite support: drop every binding of key `k`. -/
def alistErase {κ α : Type} [DecidableEq κ] (k : κ) : List (κ × α) → List (κ × α)
  | [] => []
  | (k₀, v) :: rest =>
      if k₀ = k then alistErase k rest else (k₀, v) :: alistErase k rest

/-- Python `d[k] = v`: bind `k` to `v`, dropping any previous binding. -/
def alistInsert {κ α : Type} [DecidableEq κ] (k : κ) (v : α)
    (l : List (κ × α)) : List (κ × α) :=
  (k, v) :: alistErase k l

/-! ### Track catalog (receive_distance.py lines 148-179) -/

/-- `os.path.splitext(filename)[0]`: everything before the last dot, unless
every character before that dot is itself a dot (then no extension). -/
def splitextRoot (p : String) : String :=
  let cs := p.toList
  match ((List.range cs.length).filter fun i => cs.getD i ' ' = '.').getLast? with
  | some i => if (cs.take i).any (fun c => c ≠ '.') then String.mk (cs.take i) else p
  | none => p

/-- First maximal run of decimal digits in a character list
(`re.search(r'(\d+)', s)`). -/
def firstDigitRun : List Char → List Char
  | [] => []
  | c :: rest =>
      if c.isDigit then (c :: rest).takeWhile Char.isDigit
      else firstDigitRun rest

/-- Decimal value of a digit run (`int(match.group(1))`). -/
def digitsToNat (ds : List Char) : Nat :=
  ds.foldl (fun n c => n * 10 + (c.toNat - 48)) 0

/-- `MIDITrackTrigger._extract_note_from_filename` (lines 148-155): strip the
extension, take the first run of decimal digits, keep it when its value is
in 0..127. -/
def extract_note_from_filename (filename : String) : Option Nat :=
  let nameWithoutExt := splitextRoot filename
  match firstDigitRun nameWithoutExt.toList with
  | [] => none
  | ds =>
      let noteNum := digitsToNat ds
      if noteNum ≤ 127 then some noteNum else none

/-- Loop body of `_create_note_mapping` (lines 165-173): a filename with an
extractable note is written into `note_to_file_map` (overwriting any
earlier binding of the same note); the others are collected as unmapped
and only warned about. -/
def noteMappingStep (acc : List (Nat × String) × List String)
    (filename : String) : List (Nat × String) × List String :=
  match extract_note_from_filename filename with
  | some note => (alistInsert note filename acc.1, acc.2)
  | none => (acc.1, acc.2 ++ [filename])

/-- `MIDITrackTrigger._create_note_mapping` (lines 157-179): fold over the
audio-dict filenames in order.  Returns `(note_to_file_map,
unmapped_files)`. -/
def create_note_mapping (files : List String) :
    List (Nat × String) × List String :=
  files.foldl noteMappingStep ([], [])

/-! ### Presence detector (receive_distance.py lines 319-342)

`main` keeps `person_detected` and `last_detection_time` (initialised to
`False` and `0`) and, per parsed distance sample, emits a "proximity
detected" event (which calls `queue_random_track`) exactly when the
sample is within the threshold, nobody was detected, and the cooldown
since the last detection has strictly elapsed. -/

structure PresenceState where
  personDetected : Bool
  lastDetectionTime : ℚ
deriving DecidableEq, Repr

def initPresence : PresenceState := { personDetected := false, lastDetectionTime := 0 }

/-- One loop iteration of `main` on a parsed sample `(t, dist)`; returns the
new state and whether a presence event fired. -/
def observe (threshold cooldown : ℚ) (s : PresenceState) (t dist : ℚ) :
    PresenceState × Bool :=
  if dist ≤ threshold then
    if s.personDetected = false ∧ cooldown < t - s.lastDetectionTime then
      ({ personDetected := true, lastDetectionTime := t }, true)
    else (s, false)
  else
    if s.personDetected then ({ s with personDetected := false }, false)
    else (s, false)

/-- Timestamps of the presence events emitted on a sample sequence. -/
def detectorEvents (threshold cooldown : ℚ) :
    PresenceState → List (ℚ × ℚ) → List ℚ
  | _, [] => []
  | s, (t, dist) :: rest =>
      let r := observe threshold cooldown s t dist
      if r.2 then t :: detectorEvents threshold cooldown r.1 rest
      else detectorEvents threshold cooldown r.1 rest

/-! ### Playback scheduler (`MIDITrackTrigger`, receive_distance.py lines 118-298)

State fields mirror the instance fields; pending timers are modelled as
multisets (lists) of the note each timer carries.  `active_timers` in the
source also retains already-fired timer objects, but only the alive
(pending) ones are observable (cancellation at `close`), so `delayTimers`
holds exactly the pending delay timers.  Cleanup timers started in
`_trigger_track` are local variables in the source — never tracked, hence
never cancelled; `cleanupTimers` holds the pending ones. -/

structure SchedConfig where
  midiPortAvailable : Bool
  noteToFileMap : List (Nat × String)
  audioDict : List (String × ℚ)
deriving DecidableEq, Repr

structure SchedState where
  queuedCount : Int
  playingCount : Int
  playingTracks : List (Nat × String × ℚ)
  delayTimers : List Nat
  cleanupTimers : List Nat
  emptyQueueTimer : Bool
  lastQueueActivity : ℚ
  portClosed : Bool
  frozen : Bool
deriving DecidableEq, Repr

/-- `_reset_empty_queue_timer` (lines 266-275): cancel any live idle timer,
then start a fresh one exactly when the queue is empty and nothing plays. -/
def reset_empty_queue_timer (s : SchedState) : SchedState :=
  { s with emptyQueueTimer := decide (s.queuedCount = 0 ∧ s.playingCount = 0) }

/-- Catalog duration a triggered note resolves to in `_trigger_track`
(lines 218-219): `audio_dict.get(note_to_file_map.get(note, "Unknown"), 0)`. -/
def durationOf (cfg : SchedConfig) (trackNote : Nat) : ℚ :=
  (alistGet ((alistGet trackNote cfg.noteToFileMap).getD "Unknown")
    cfg.audioDict).getD 0

/-- `queue_random_track` (lines 181-208).  The random pick of
`random.choice(available_notes)` is injected as an index `pick` into the
key list.  The returned `Bool` reports whether a track was queued (the
source's success path; every other path returns with no state change). -/
def queue_random_track (cfg : SchedConfig) (pick : Nat) (now : ℚ)
    (s : SchedState) : Bool × SchedState :=
  if !cfg.midiPortAvailable then (false, s)
  else if cfg.noteToFileMap.isEmpty then (false, s)
  else if MAX_QUEUED_TRACKS ≤ s.queuedCount then (false, s)
  else
    let availableNotes := cfg.noteToFileMap.map Prod.fst
    let trackNote := availableNotes.getD (pick % availableNotes.length) 0
    let s₁ := { s with
      queuedCount := s.queuedCount + 1,
      delayTimers := s.delayTimers ++ [trackNote],
      lastQueueActivity := now }
    (true, reset_empty_queue_timer s₁)

/-- `_trigger_track` (lines 210-251), run when a delay timer fires.
`pulseOk` tells whether the MIDI note-on/note-off send succeeds; on
failure the mutation is rolled back (lines 246-251).  A cleanup timer is
started only on success with a positive catalog duration (lines 242-244). -/
def trigger_track (cfg : SchedConfig) (trackNote : Nat) (now : ℚ)
    (pulseOk : Bool) (s : SchedState) : SchedState :=
  if !cfg.midiPortAvailable then { s with queuedCount := s.queuedCount - 1 }
  else
    let filename := (alistGet trackNote cfg.noteToFileMap).getD "Unknown"
    let duration := (alistGet filename cfg.audioDict).getD 0
    let s₁ := { s with
      queuedCount := s.queuedCount - 1,
      playingCount := s.playingCount + 1,
      playingTracks := alistInsert trackNote (filename, now) s.playingTracks }
    let s₂ :=
      if s₁.queuedCount = 0 ∧ s₁.playingCount = 1 then reset_empty_queue_timer s₁
      else s₁
    if pulseOk then
      if 0 < duration then
        { s₂ with cleanupTimers := s₂.cleanupTimers ++ [trackNote] }
      else s₂
    else
      { s₂ with
        playingCount := s₂.playingCount - 1,
        playingTracks := alistErase trackNote s₂.playingTracks }

/-- `_track_finished` (lines 253-264), run when a cleanup timer fires. -/
def track_finished (s : SchedState) (trackNote : Nat) : SchedState :=
  if (alistGet trackNote s.playingTracks).isSome then
    let s₁ := { s with
      playingTracks := alistErase trackNote s.playingTracks,
      playingCount := s.playingCount - 1 }
    if s₁.queuedCount = 0 ∧ s₁.playingCount = 0 then reset_empty_queue_timer s₁
    else s₁
  else s

/-- `_auto_queue_track` (lines 277-281), run when the idle timer fires
(so the timer is no longer alive).  It acquires `self.lock`, re-checks
emptiness and calls `queue_random_track`; that call's own
`with self.lock:` (line 190) re-acquires the same non-reentrant
`threading.Lock` and blocks forever — unless one of the two early
returns of `queue_random_track` (no MIDI port / empty map, lines
182-188, checked before the lock) fires first. -/
def auto_queue_track (cfg : SchedConfig) (s : SchedState) : SchedState :=
  let s₁ := { s with emptyQueueTimer := false }
  if s₁.queuedCount = 0 ∧ s₁.playingCount = 0 then
    if !cfg.midiPortAvailable then s₁
    else if cfg.noteToFileMap.isEmpty then s₁
    else { s₁ with frozen := true }
  else s₁

/-- `close` (lines 283-298): cancel the pending delay timers and the idle
timer, then close the MIDI port.  Cleanup timers are not tracked anywhere
and are left running; `playing_tracks` and the counters are untouched. -/
def close (cfg : SchedConfig) (s : SchedState) : SchedState :=
  { s with
    delayTimers := [],
    emptyQueueTimer := false,
    portClosed := s.portClosed || cfg.midiPortAvailable }

/-- `__init__` (lines 119-146): zero counters, empty maps and timer lists,
`last_queue_activity = time.time()`, and a final
`_reset_empty_queue_timer()` which arms the idle timer (queue starts
empty). -/
def initState (now : ℚ) : SchedState :=
  reset_empty_queue_timer
    { queuedCount := 0
      playingCount := 0
      playingTracks := []
      delayTimers := []
      cleanupTimers := []
      emptyQueueTimer := false
      lastQueueActivity := now
      portClosed := false
      frozen := false }

/-- Scheduler events: a presence arrival (`enqueue`), a delay-timer firing,
a cleanup-timer firing, the idle-timer firing, and shutdown. -/
inductive SchedOp : Type
  | enqueue (pick : Nat) (now : ℚ)
  | delayFire (trackNote : Nat) (now : ℚ) (pulseOk : Bool)
  | cleanupFire (trackNote : Nat)
  | idleFire
  | closeOp
deriving DecidableEq, Repr

/-- One event.  A timer can fire only when it is pending; firing consumes
it.  Once `frozen` (the lock is held forever by the deadlocked
`_auto_queue_track` callback), no lock-guarded operation completes, so
nothing changes any more. -/
def step (cfg : SchedConfig) (s : SchedState) (op : SchedOp) : SchedState :=
  if s.frozen then s
  else
    match op with
    | .enqueue pick now => (queue_random_track cfg pick now s).2
    | .delayFire trackNote now pulseOk =>
        if trackNote ∈ s.delayTimers then
          trigger_track cfg trackNote now pulseOk
            { s with delayTimers := s.delayTimers.erase trackNote }
        else s
    | .cleanupFire trackNote =>
        if trackNote ∈ s.cleanupTimers then
          track_finished
            { s with cleanupTimers := s.cleanupTimers.erase trackNote } trackNote
        else s
    | .idleFire => if s.emptyQueueTimer then auto_queue_track cfg s else s
    | .closeOp => close cfg s

/-- Run a trace of events from a state. -/
def run (cfg : SchedConfig) (s : SchedState) (ops : List SchedOp) : SchedState :=
  ops.foldl (step cfg) s

/-! ### Derived predicates and concrete instances used by the theorems -/

/-- The spec's idle-timer invariant: the idle timer is armed exactly when
the queue is empty and nothing is playing. -/
def armedIffEmpty (s : SchedState) : Prop :=
  s.emptyQueueTimer = true ↔ (s.queuedCount = 0 ∧ s.playingCount = 0)

/-- Events after which the source actually re-establishes the idle-timer
invariant: enqueues, delay firings whose MIDI pulse succeeds, and cleanup
firings.  A failed pulse (rollback), the idle-timer firing itself, and
shutdown are excluded. -/
def tame : SchedOp → Bool
  | .delayFire _ _ pulseOk => pulseOk
  | .idleFire => false
  | .closeOp => false
  | _ => true

/-- Inductive invariant of reachable scheduler states (MIDI port open,
trace of tame events): the idle-timer iff plus counting bounds tying the
pending delay timers to `queuedCount` and the playing map to
`playingCount`. -/
structure SchedInv (s : SchedState) : Prop where
  armed : armedIffEmpty s
  delayBound : (s.delayTimers.length : Int) ≤ s.queuedCount
  playBound : (s.playingTracks.length : Int) ≤ s.playingCount
  notFrozen : s.frozen = false

/-- The spec scenario's catalog: note 60 plays item `a` (10 s), note 61
plays item `b` (0 s, i.e. unknown/zero duration); a MIDI port is open. -/
def cfgAB : SchedConfig :=
  { midiPortAvailable := true
    noteToFileMap := [(60, "a"), (61, "b")]
    audioDict := [("a", 10), ("b", 0)] }

/-- Enqueue (pick index 1 selects note 61) followed by its delay timer
firing with a successful pulse: note 61 is now playing. -/
def scenarioState : SchedState :=
  run cfgAB (initState 0) [SchedOp.enqueue 1 0, SchedOp.delayFire 61 1 true]

/-- A full-queue state (`queuedCount = MAX_QUEUED_TRACKS`). -/
def sFull : SchedState :=
  { queuedCount := 2
    playingCount := 0
    playingTracks := []
    delayTimers := [60, 61]
    cleanupTimers := []
    emptyQueueTimer := false
    lastQueueActivity := 0
    portClosed := false
    frozen := false }

/-! ## Helper lemmas: association lists and options -/

theorem alistGet_insert_self {κ α : Type} [DecidableEq κ] (k : κ) (v : α)
    (l : List (κ × α)) : alistGet k (alistInsert k v l) = some v := by
  simp [alistInsert, alistGet]

theorem alistGet_erase_ne {κ α : Type} [DecidableEq κ] {k k' : κ}
    (h : k' ≠ k) (l : List (κ × α)) :
    alistGet k (alistErase k' l) = alistGet k l := by
  induction l with
  | nil => rfl
  | cons p rest ih =>
      obtain ⟨k₀, v⟩ := p
      by_cases h₀ : k₀ = k'
      · subst h₀
        simp [alistErase, alistGet, h, ih]
      · simp [alistErase, alistGet, h₀, ih]

theorem alistGet_erase_self {κ α : Type} [DecidableEq κ] (k : κ)
    (l : List (κ × α)) : alistGet k (alistErase k l) = none := by
  induction l with
  | nil => rfl
  | cons p rest ih =>
      obtain ⟨k₀, v⟩ := p
      by_cases h₀ : k₀ = k
      · simp only [alistErase, if_pos h₀, ih]
      · simp only [alistErase, if_neg h₀, alistGet, if_neg h₀, ih]

theorem alistGet_insert_ne {κ α : Type} [DecidableEq κ] {k k' : κ}
    (h : k' ≠ k) (v : α) (l : List (κ × α)) :
    alistGet k (alistInsert k' v l) = alistGet k l := by
  simp only [alistInsert, alistGet, if_neg h]
  exact alistGet_erase_ne h l

theorem alistErase_length_le {κ α : Type} [DecidableEq κ] (k : κ)
    (l : List (κ × α)) : (alistErase k l).length ≤ l.length := by
  induction l with
  | nil => exact le_refl _
  | cons p rest ih =>
      obtain ⟨k₀, v⟩ := p
      by_cases h₀ : k₀ = k
      · simp only [alistErase, if_pos h₀, List.length_cons]
        exact le_trans ih (Nat.le_succ _)
      · simp only [alistErase, if_neg h₀, List.length_cons]
        exact Nat.succ_le_succ ih

theorem alistErase_length_lt {κ α : Type} [DecidableEq κ] {k : κ}
    {l : List (κ × α)} (h : (alistGet k l).isSome = true) :
    (alistErase k l).length < l.length := by
  induction l with
  | nil => simp [alistGet] at h
  | cons p rest ih =>
      obtain ⟨k₀, v⟩ := p
      by_cases h₀ : k₀ = k
      · simp only [alistErase, if_pos h₀, List.length_cons]
        exact Nat.lt_succ_of_le (alistErase_length_le k rest)
      · simp only [alistGet, if_neg h₀] at h
        simp only [alistErase, if_neg h₀, List.length_cons]
        exact Nat.succ_lt_succ (ih h)

theorem alistInsert_length_le {κ α : Type} [DecidableEq κ] (k : κ) (v : α)
    (l : List (κ × α)) : (alistInsert k v l).length ≤ l.length + 1 := by
  simp only [alistInsert, List.length_cons]
  exact Nat.succ_le_succ (alistErase_length_le k l)

theorem alistErase_idem {κ α : Type} [DecidableEq κ] (k : κ)
    (l : List (κ × α)) : alistErase k (alistErase k l) = alistErase k l := by
  induction l with
  | nil => rfl
  | cons p rest ih =>
      obtain ⟨k₀, v⟩ := p
      by_cases h₀ : k₀ = k
      · simp only [alistErase, if_pos h₀, ih]
      · simp only [alistErase, if_neg h₀, ih]

theorem alistErase_insert_self {κ α : Type} [DecidableEq κ] (k : κ) (v : α)
    (l : List (κ × α)) :
    alistErase k (alistInsert k v l) = alistErase k l := by
  simp only [alistInsert, alistErase, if_pos rfl]
  exact alistErase_idem k l

theorem getLast?_cons_or {α : Type} (a : α) (l : List α) :
    (a :: l).getLast? = l.getLast?.or (some a) := by
  cases l with
  | nil => rfl
  | cons b l' =>
      rw [List.getLast?_cons_cons]
      obtain ⟨x, hx⟩ := Option.isSome_iff_exists.mp
        (List.getLast?_isSome.mpr (List.cons_ne_nil b l'))
      rw [hx]
      rfl

theorem or_some_or {α : Type} (x : Option α) (a : α) (y : Option α) :
    (x.or (some a)).or y = x.or (some a) := by
  cases x <;> rfl

/-! ## Helper lemmas: catalog construction -/

theorem noteMappingLoop_lookup (n : Nat) :
    ∀ (files : List String) (acc : List (Nat × String) × List String),
      alistGet n (files.foldl noteMappingStep acc).1 =
        ((files.filter fun f =>
            decide (extract_note_from_filename f = some n)).getLast?).or
          (alistGet n acc.1) := by
  intro files
  induction files with
  | nil => intro acc; rfl
  | cons f rest ih =>
      intro acc
      rw [List.foldl_cons]
      cases hf : extract_note_from_filename f with
      | none =>
          rw [ih]
          simp [noteMappingStep, hf, List.filter_cons]
      | some m =>
          by_cases hmn : m = n
          · subst hmn
            rw [ih]
            simp [noteMappingStep, hf, List.filter_cons, getLast?_cons_or,
              or_some_or, alistGet_insert_self]
          · rw [ih]
            simp [noteMappingStep, hf, List.filter_cons, hmn,
              alistGet_insert_ne hmn]

theorem noteMappingLoop_unmapped :
    ∀ (files : List String) (acc : List (Nat × String) × List String),
      (files.foldl noteMappingStep acc).2 =
        acc.2 ++ files.filter fun f =>
          decide (extract_note_from_filename f = none) := by
  intro files
  induction files with
  | nil => intro acc; simp
  | cons f rest ih =>
      intro acc
      rw [List.foldl_cons]
      cases hf : extract_note_from_filename f with
      | none =>
          rw [ih]
          simp [noteMappingStep, hf, List.filter_cons]
      | some m =>
          rw [ih]
          simp [noteMappingStep, hf, List.filter_cons]

/-! ## Helper lemmas: presence detector -/

theorem observe_emit_spec (threshold cooldown : ℚ) (s : PresenceState)
    (t dist : ℚ) (h : (observe threshold cooldown s t dist).2 = true) :
    dist ≤ threshold ∧ s.personDetected = false ∧
      cooldown < t - s.lastDetectionTime ∧
      (observe threshold cooldown s t dist).1.personDetected = true ∧
      (observe threshold cooldown s t dist).1.lastDetectionTime = t := by
  unfold observe at h ⊢
  by_cases h₁ : dist ≤ threshold
  · simp only [if_pos h₁] at h ⊢
    by_cases h₂ : s.personDetected = false ∧ cooldown < t - s.lastDetectionTime
    · simp only [if_pos h₂]
      exact ⟨h₁, h₂.1, h₂.2, trivial, trivial⟩
    · simp only [if_neg h₂] at h
      exact absurd h (by simp)
  · simp only [if_neg h₁] at h
    by_cases h₃ : s.personDetected = true
    · simp only [if_pos h₃] at h
      exact absurd h (by simp)
    · simp only [Bool.not_eq_true] at h₃
      simp only [h₃, if_neg] at h
      exact absurd h (by simp)

theorem observe_no_emit_lastTime (threshold cooldown : ℚ) (s : PresenceState)
    (t dist : ℚ) (h : (observe threshold cooldown s t dist).2 = false) :
    (observe threshold cooldown s t dist).1.lastDetectionTime =
      s.lastDetectionTime := by
  unfold observe at h ⊢
  by_cases h₁ : dist ≤ threshold
  · simp only [if_pos h₁] at h ⊢
    by_cases h₂ : s.personDetected = false ∧ cooldown < t - s.lastDetectionTime
    · simp only [if_pos h₂] at h
      exact absurd h (by simp)
    · simp only [if_neg h₂]
  · simp only [if_neg h₁]
    by_cases h₃ : s.personDetected
    · simp only [if_pos h₃]
    · simp only [if_neg h₃]

theorem detectorEvents_head_gap (threshold cooldown : ℚ) :
    ∀ (samples : List (ℚ × ℚ)) (s : PresenceState) (t : ℚ),
      (detectorEvents threshold cooldown s samples).head? = some t →
      cooldown < t - s.lastDetectionTime := by
  intro samples
  induction samples with
  | nil => intro s t h; exact absurd h (by simp [detectorEvents])
  | cons sample rest ih =>
      intro s t h
      obtain ⟨t₀, d₀⟩ := sample
      unfold detectorEvents at h
      by_cases hr : (observe threshold cooldown s t₀ d₀).2 = true
      · simp only [hr, if_pos] at h
        simp only [List.head?_cons, Option.some.injEq] at h
        subst h
        exact (observe_emit_spec threshold cooldown s t₀ d₀ hr).2.2.1
      · simp only [Bool.not_eq_true] at hr
        simp only [hr, Bool.false_eq_true, if_neg, not_false_iff] at h
        have hlast := observe_no_emit_lastTime threshold cooldown s t₀ d₀ hr
        have := ih (observe threshold cooldown s t₀ d₀).1 t h
        rwa [hlast] at this

theorem detectorEvents_chain (threshold cooldown : ℚ) :
    ∀ (samples : List (ℚ × ℚ)) (s : PresenceState),
      List.Chain' (fun a b => cooldown < b - a)
        (detectorEvents threshold cooldown s samples) := by
  intro samples
  induction samples with
  | nil => intro s; simp [detectorEvents]
  | cons sample rest ih =>
      intro s
      obtain ⟨t₀, d₀⟩ := sample
      unfold detectorEvents
      by_cases hr : (observe threshold cooldown s t₀ d₀).2 = true
      · simp only [hr, if_pos]
        rw [List.chain'_cons']
        refine ⟨?_, ih _⟩
        intro b hb
        have hhead := detectorEvents_head_gap threshold cooldown rest
          (observe threshold cooldown s t₀ d₀).1 b hb
        have hset := (observe_emit_spec threshold cooldown s t₀ d₀ hr).2.2.2.2
        rwa [hset] at hhead
      · simp only [Bool.not_eq_true] at hr
        simp only [hr, Bool.false_eq_true, if_neg, not_false_iff]
        exact ih _

/-! ## Helper lemmas: scheduler operation effects -/

theorem reset_other_fields (s : SchedState) :
    (reset_empty_queue_timer s).queuedCount = s.queuedCount ∧
    (reset_empty_queue_timer s).playingCount = s.playingCount ∧
    (reset_empty_queue_timer s).playingTracks = s.playingTracks ∧
    (reset_empty_queue_timer s).delayTimers = s.delayTimers ∧
    (reset_empty_queue_timer s).cleanupTimers = s.cleanupTimers ∧
    (reset_empty_queue_timer s).frozen = s.frozen := by
  simp [reset_empty_queue_timer]

/-- `queue_random_track` either rejects with no state change, or (when the
queue was not full) adds one to `queuedCount`, appends one pending delay
timer, and re-evaluates the idle timer. -/
theorem queue_random_track_cases (cfg : SchedConfig) (pick : Nat) (now : ℚ)
    (s : SchedState) :
    queue_random_track cfg pick now s = (false, s) ∨
    (¬ MAX_QUEUED_TRACKS ≤ s.queuedCount ∧ ∃ trackNote,
      queue_random_track cfg pick now s =
        (true, reset_empty_queue_timer { s with
          queuedCount := s.queuedCount + 1,
          delayTimers := s.delayTimers ++ [trackNote],
          lastQueueActivity := now })) := by
  unfold queue_random_track
  split_ifs with h₁ h₂ h₃
  · exact Or.inl rfl
  · exact Or.inl rfl
  · exact Or.inl rfl
  · exact Or.inr ⟨h₃, _, rfl⟩

theorem trigger_track_queued (cfg : SchedConfig) (trackNote : Nat) (now : ℚ)
    (pulseOk : Bool) (s : SchedState) :
    (trigger_track cfg trackNote now pulseOk s).queuedCount =
      s.queuedCount - 1 := by
  simp only [trigger_track]
  split_ifs <;> simp [reset_empty_queue_timer]

theorem trigger_track_frozen (cfg : SchedConfig) (trackNote : Nat) (now : ℚ)
    (pulseOk : Bool) (s : SchedState) :
    (trigger_track cfg trackNote now pulseOk s).frozen = s.frozen := by
  simp only [trigger_track]
  split_ifs <;> simp [reset_empty_queue_timer]

theorem trigger_track_delay (cfg : SchedConfig) (trackNote : Nat) (now : ℚ)
    (pulseOk : Bool) (s : SchedState) :
    (trigger_track cfg trackNote now pulseOk s).delayTimers = s.delayTimers := by
  simp only [trigger_track]
  split_ifs <;> simp [reset_empty_queue_timer]

theorem trigger_track_playing_true (cfg : SchedConfig) (trackNote : Nat)
    (now : ℚ) (s : SchedState) (hport : cfg.midiPortAvailable = true) :
    (trigger_track cfg trackNote now true s).playingCount =
      s.playingCount + 1 := by
  simp only [trigger_track, hport, Bool.not_true, Bool.false_eq_true, if_false]
  split_ifs <;> simp [reset_empty_queue_timer]

theorem trigger_track_playing_false (cfg : SchedConfig) (trackNote : Nat)
    (now : ℚ) (s : SchedState) (hport : cfg.midiPortAvailable = true) :
    (trigger_track cfg trackNote now false s).playingCount = s.playingCount := by
  simp only [trigger_track, hport, Bool.not_true, Bool.false_eq_true, if_false]
  split_ifs <;> simp [reset_empty_queue_timer]

theorem trigger_track_tracks_true (cfg : SchedConfig) (trackNote : Nat)
    (now : ℚ) (s : SchedState) (hport : cfg.midiPortAvailable = true) :
    (trigger_track cfg trackNote now true s).playingTracks =
      alistInsert trackNote
        ((alistGet trackNote cfg.noteToFileMap).getD "Unknown", now)
        s.playingTracks := by
  simp only [trigger_track, hport, Bool.not_true, Bool.false_eq_true, if_false]
  split_ifs <;> simp [reset_empty_queue_timer]

theorem trigger_track_tracks_false (cfg : SchedConfig) (trackNote : Nat)
    (now : ℚ) (s : SchedState) (hport : cfg.midiPortAvailable = true) :
    (trigger_track cfg trackNote now false s).playingTracks =
      alistErase trackNote s.playingTracks := by
  simp only [trigger_track, hport, Bool.not_true, Bool.false_eq_true, if_false]
  split_ifs <;>
    simp [reset_empty_queue_timer, alistErase_insert_self]

theorem trigger_track_cleanup_true (cfg : SchedConfig) (trackNote : Nat)
    (now : ℚ) (s : SchedState) (hport : cfg.midiPortAvailable = true) :
    (trigger_track cfg trackNote now true s).cleanupTimers =
      if 0 < durationOf cfg trackNote then s.cleanupTimers ++ [trackNote]
      else s.cleanupTimers := by
  simp only [trigger_track, durationOf, hport, Bool.not_true, Bool.false_eq_true,
    if_false]
  split_ifs <;> simp_all [reset_empty_queue_timer]

theorem trigger_track_cleanup_false (cfg : SchedConfig) (trackNote : Nat)
    (now : ℚ) (s : SchedState) (hport : cfg.midiPortAvailable = true) :
    (trigger_track cfg trackNote now false s).cleanupTimers =
      s.cleanupTimers := by
  simp only [trigger_track, hport, Bool.not_true, Bool.false_eq_true, if_false]
  split_ifs <;> simp [reset_empty_queue_timer]

theorem trigger_track_armed (cfg : SchedConfig) (trackNote : Nat) (now : ℚ)
    (pulseOk : Bool) (s : SchedState) (hport : cfg.midiPortAvailable = true) :
    (trigger_track cfg trackNote now pulseOk s).emptyQueueTimer =
      if s.queuedCount - 1 = 0 ∧ s.playingCount + 1 = 1 then false
      else s.emptyQueueTimer := by
  simp only [trigger_track, hport, Bool.not_true, Bool.false_eq_true, if_false]
  split_ifs with h₁ <;> simp_all [reset_empty_queue_timer]

theorem track_finished_none (s : SchedState) (trackNote : Nat)
    (h : (alistGet trackNote s.playingTracks).isSome = false) :
    track_finished s trackNote = s := by
  unfold track_finished
  simp [h]

theorem track_finished_some (s : SchedState) (trackNote : Nat)
    (h : (alistGet trackNote s.playingTracks).isSome = true) :
    (track_finished s trackNote).playingTracks =
      alistErase trackNote s.playingTracks ∧
    (track_finished s trackNote).playingCount = s.playingCount - 1 ∧
    (track_finished s trackNote).queuedCount = s.queuedCount ∧
    (track_finished s trackNote).cleanupTimers = s.cleanupTimers ∧
    (track_finished s trackNote).delayTimers = s.delayTimers ∧
    (track_finished s trackNote).frozen = s.frozen ∧
    (track_finished s trackNote).emptyQueueTimer =
      (if s.queuedCount = 0 ∧ s.playingCount - 1 = 0 then true
       else s.emptyQueueTimer) := by
  unfold track_finished
  simp only [h, if_pos]
  split_ifs with h₁ <;> simp_all [reset_empty_queue_timer]

theorem auto_queue_track_fields (cfg : SchedConfig) (s : SchedState) :
    (auto_queue_track cfg s).queuedCount = s.queuedCount ∧
    (auto_queue_track cfg s).playingCount = s.playingCount ∧
    (auto_queue_track cfg s).playingTracks = s.playingTracks ∧
    (auto_queue_track cfg s).delayTimers = s.delayTimers ∧
    (auto_queue_track cfg s).cleanupTimers = s.cleanupTimers ∧
    (auto_queue_track cfg s).emptyQueueTimer = false := by
  refine ⟨?_, ?_, ?_, ?_, ?_, ?_⟩ <;>
    (simp only [auto_queue_track]; split_ifs <;> rfl)

theorem close_fields (cfg : SchedConfig) (s : SchedState) :
    (close cfg s).queuedCount = s.queuedCount ∧
    (close cfg s).playingCount = s.playingCount ∧
    (close cfg s).playingTracks = s.playingTracks ∧
    (close cfg s).delayTimers = [] ∧
    (close cfg s).cleanupTimers = s.cleanupTimers ∧
    (close cfg s).emptyQueueTimer = false ∧
    (close cfg s).frozen = s.frozen := by
  simp [close]

/-! ## Step-level bound on the queue counter -/

theorem step_queued_le (cfg : SchedConfig) (s : SchedState) (op : SchedOp)
    (h : s.queuedCount ≤ MAX_QUEUED_TRACKS) :
    (step cfg s op).queuedCount ≤ MAX_QUEUED_TRACKS := by
  unfold step
  split
  · exact h
  cases op with
  | enqueue pick now =>
      rcases queue_random_track_cases cfg pick now s with hc | ⟨hlt, trackNote, hc⟩
      · simp only [hc]; exact h
      · simp only [hc]
        rw [(reset_other_fields _).1]
        exact Int.add_one_le_iff.mpr (not_le.mp hlt)
  | delayFire trackNote now pulseOk =>
      dsimp only
      split
      · rw [trigger_track_queued]
        exact le_trans (sub_le_self _ zero_le_one) h
      · exact h
  | cleanupFire trackNote =>
      dsimp only
      split
      · by_cases hsome :
          (alistGet trackNote s.playingTracks).isSome = true
        · rw [(track_finished_some
            { s with cleanupTimers := s.cleanupTimers.erase trackNote }
            trackNote hsome).2.2.1]
          exact h
        · rw [track_finished_none
            { s with cleanupTimers := s.cleanupTimers.erase trackNote }
            trackNote (by simpa using hsome)]
          exact h
      · exact h
  | idleFire =>
      dsimp only
      split
      · rw [(auto_queue_track_fields cfg s).1]; exact h
      · exact h
  | closeOp => rw [(close_fields cfg s).1]; exact h

/-- C1: for every configuration and every trace of scheduler events starting
from the freshly-constructed scheduler, `queuedCount` never exceeds
`MAX_QUEUED_TRACKS`: `queue_random_track` increments it only after checking
`queued_count >= MAX_QUEUED_TRACKS` under the lock, and every other
operation leaves it unchanged or decrements it. -/
theorem C1_queued_count_bounded (cfg : SchedConfig) (now₀ : ℚ)
    (ops : List SchedOp) :
    (run cfg (initState now₀) ops).queuedCount ≤ MAX_QUEUED_TRACKS := by
  have hgen : ∀ (l : List SchedOp) (s : SchedState),
      s.queuedCount ≤ MAX_QUEUED_TRACKS →
      (run cfg s l).queuedCount ≤ MAX_QUEUED_TRACKS := by
    intro l
    induction l with
    | nil => intro s h; exact h
    | cons op rest ih =>
        intro s h
        exact ih (step cfg s op) (step_queued_le cfg s op h)
  exact hgen ops (initState now₀)
    (show (0 : Int) ≤ MAX_QUEUED_TRACKS by norm_num [MAX_QUEUED_TRACKS])

/-- C3: the idle timer fires on the fully idle scheduler (MIDI port open,
nonempty catalog).  `_auto_queue_track` holds `self.lock` and calls
`queue_random_track`, which blocks forever re-acquiring the same
non-reentrant `threading.Lock`: the state freezes, no track is ever
queued by the auto-enqueue, and even later presence events can no longer
enqueue (the lock is never released).  This refutes the spec's scenario
in which exactly one auto-enqueue completes and re-arms the cycle. -/
theorem C3_auto_enqueue_deadlocks :
    (step cfgAB (initState 0) SchedOp.idleFire).frozen = true ∧
    (step cfgAB (initState 0) SchedOp.idleFire).queuedCount = 0 ∧
    (run cfgAB (initState 0)
        [SchedOp.idleFire, SchedOp.enqueue 0 5]).queuedCount = 0 := by
  decide

/-- C4: calling `queue_random_track` when `queuedCount` equals
`MAX_QUEUED_TRACKS` reports no enqueue and returns the state completely
unchanged (counters, playing set, pending timers, idle timer). -/
theorem C4_enqueue_full_rejects (cfg : SchedConfig) (pick : Nat) (now : ℚ)
    (s : SchedState) (h : s.queuedCount = MAX_QUEUED_TRACKS) :
    queue_random_track cfg pick now s = (false, s) := by
  unfold queue_random_track
  split_ifs with h₁ h₂ h₃
  · rfl
  · rfl
  · rfl
  · exact absurd (le_of_eq h.symm) h₃

theorem C4_enqueue_full_rejects_witness :
    sFull.queuedCount = MAX_QUEUED_TRACKS ∧
    queue_random_track cfgAB 0 0 sFull = (false, sFull) :=
  ⟨by decide, C4_enqueue_full_rejects cfgAB 0 0 sFull (by decide)⟩

/-- C5: when the MIDI port is available, `_trigger_track` with a successful
pulse decrements `queuedCount` by exactly 1, increments `playingCount` by
exactly 1, and records the note in `playing_tracks` with its filename and
`start_time := now` (all inside the single lock region). -/
theorem C5_trigger_now_success (cfg : SchedConfig) (trackNote : Nat)
    (now : ℚ) (s : SchedState) (hport : cfg.midiPortAvailable = true) :
    (trigger_track cfg trackNote now true s).queuedCount =
      s.queuedCount - 1 ∧
    (trigger_track cfg trackNote now true s).playingCount =
      s.playingCount + 1 ∧
    alistGet trackNote (trigger_track cfg trackNote now true s).playingTracks =
      some ((alistGet trackNote cfg.noteToFileMap).getD "Unknown", now) :=
  ⟨trigger_track_queued cfg trackNote now true s,
   trigger_track_playing_true cfg trackNote now s hport,
   by rw [trigger_track_tracks_true cfg trackNote now s hport,
        alistGet_insert_self]⟩

theorem C5_trigger_now_success_witness :
    cfgAB.midiPortAvailable = true ∧
    ((trigger_track cfgAB 60 2 true sFull).queuedCount =
        sFull.queuedCount - 1 ∧
      (trigger_track cfgAB 60 2 true sFull).playingCount =
        sFull.playingCount + 1 ∧
      alistGet 60 (trigger_track cfgAB 60 2 true sFull).playingTracks =
        some ((alistGet 60 cfgAB.noteToFileMap).getD "Unknown", 2)) :=
  ⟨rfl, C5_trigger_now_success cfgAB 60 2 sFull rfl⟩

/-- C6: when the pulse fails after the atomic mutation, `_trigger_track`
rolls it back: the net `playingCount` is unchanged (incremented then
decremented by exactly 1), the note is deleted from `playing_tracks`, no
cleanup timer is started, and the function returns normally (the
exception is caught; the queue decrement is not undone). -/
theorem C6_trigger_failure_rollback (cfg : SchedConfig) (trackNote : Nat)
    (now : ℚ) (s : SchedState) (hport : cfg.midiPortAvailable = true) :
    (trigger_track cfg trackNote now false s).playingCount = s.playingCount ∧
    (trigger_track cfg trackNote now false s).queuedCount =
      s.queuedCount - 1 ∧
    (trigger_track cfg trackNote now false s).playingTracks =
      alistErase trackNote s.playingTracks ∧
    alistGet trackNote
      (trigger_track cfg trackNote now false s).playingTracks = none ∧
    (trigger_track cfg trackNote now false s).cleanupTimers =
      s.cleanupTimers :=
  ⟨trigger_track_playing_false cfg trackNote now s hport,
   trigger_track_queued cfg trackNote now false s,
   trigger_track_tracks_false cfg trackNote now s hport,
   by rw [trigger_track_tracks_false cfg trackNote now s hport]
      exact alistGet_erase_self trackNote s.playingTracks,
   trigger_track_cleanup_false cfg trackNote now s hport⟩

theorem C6_trigger_failure_rollback_witness :
    cfgAB.midiPortAvailable = true ∧
    ((trigger_track cfgAB 60 2 false sFull).playingCount =
        sFull.playingCount ∧
      (trigger_track cfgAB 60 2 false sFull).queuedCount =
        sFull.queuedCount - 1 ∧
      (trigger_track cfgAB 60 2 false sFull).playingTracks =
        alistErase 60 sFull.playingTracks ∧
      alistGet 60 (trigger_track cfgAB 60 2 false sFull).playingTracks =
        none ∧
      (trigger_track cfgAB 60 2 false sFull).cleanupTimers =
        sFull.cleanupTimers) :=
  ⟨rfl, C6_trigger_failure_rollback cfgAB 60 2 sFull rfl⟩

/-- C8 counterexample: enqueue, let the delay timer fire with a successful
pulse (catalog duration 10 s, so a cleanup timer is armed), then call
`close`.  The cleanup timer is still pending after `close` — the source
never tracks cleanup timers in `active_timers`, so `close` cannot cancel
them, refuting the claim that they are (best-effort) cancelled. -/
theorem C8_counterexample_cleanup_survives_close :
    (run cfgAB (initState 0)
        [SchedOp.enqueue 0 0, SchedOp.delayFire 60 1 true,
          SchedOp.closeOp]).cleanupTimers = [60] ∧
    (run cfgAB (initState 0)
        [SchedOp.enqueue 0 0, SchedOp.delayFire 60 1 true,
          SchedOp.closeOp]).portClosed = true := by
  decide

/-- C8 (amended): `close` cancels every pending delay timer, cancels the
idle timer if live, and releases the MIDI port; it does NOT cancel the
cleanup timers of already-playing tracks (they stay pending), and it
leaves the counters and the playing set untouched. -/
theorem C8_close_effects (cfg : SchedConfig) (s : SchedState) :
    (close cfg s).delayTimers = [] ∧
    (close cfg s).emptyQueueTimer = false ∧
    (close cfg s).portClosed = (s.portClosed || cfg.midiPortAvailable) ∧
    (close cfg s).cleanupTimers = s.cleanupTimers ∧
    (close cfg s).playingTracks = s.playingTracks ∧
    (close cfg s).queuedCount = s.queuedCount ∧
    (close cfg s).playingCount = s.playingCount := by
  simp [close]

/-- C9 counterexample: with the source's initialisation
`last_detection_time = 0`, the spec's literal scenario — samples
`[120, 80, 80, 80, 120]` at `t = 0,1,2,3,4`, threshold 100, cooldown
5 s — emits NO presence event at all: at `t = 1` the cooldown guard
`1 - 0 > 5` fails.  The claimed single event at `t = 1` does not occur. -/
theorem C9_counterexample_literal_times :
    detectorEvents PROXIMITY_THRESHOLD DETECTION_COOLDOWN initPresence
      [(0, 120), (1, 80), (2, 80), (3, 80), (4, 120)] = [] := by
  norm_num [detectorEvents, observe, initPresence, PROXIMITY_THRESHOLD,
    DETECTION_COOLDOWN]

/-- C9 (amended): an event is emitted only on a not-present-to-present
transition (non-strict threshold) with the cooldown strictly elapsed
since `lastDetectionTime`; consequently any two consecutive emitted
events are more than `cooldown` apart; and the spec scenario does hold
once shifted past the time origin: samples `[120, 80, 80, 80, 120]` at
`t = 10..14` yield exactly one event, at `t = 11`. -/
theorem C9_presence_events (threshold cooldown : ℚ) :
    (∀ (s : PresenceState) (t dist : ℚ),
        (observe threshold cooldown s t dist).2 = true →
          dist ≤ threshold ∧ s.personDetected = false ∧
          cooldown < t - s.lastDetectionTime ∧
          (observe threshold cooldown s t dist).1.personDetected = true) ∧
    (∀ (samples : List (ℚ × ℚ)) (s : PresenceState),
        List.Chain' (fun a b => cooldown < b - a)
          (detectorEvents threshold cooldown s samples)) ∧
    detectorEvents PROXIMITY_THRESHOLD DETECTION_COOLDOWN initPresence
      [(10, 120), (11, 80), (12, 80), (13, 80), (14, 120)] = [11] := by
  refine ⟨?_, ?_, by
    norm_num [detectorEvents, observe, initPresence, PROXIMITY_THRESHOLD,
      DETECTION_COOLDOWN]⟩
  · intro s t dist h
    obtain ⟨h₁, h₂, h₃, h₄, _⟩ := observe_emit_spec threshold cooldown s t dist h
    exact ⟨h₁, h₂, h₃, h₄⟩
  · intro samples s
    exact detectorEvents_chain threshold cooldown samples s

theorem C9_presence_events_witness :
    (observe 100 5 initPresence 10 50).2 = true ∧
    ((50 : ℚ) ≤ 100 ∧ initPresence.personDetected = false ∧
      (5 : ℚ) < 10 - initPresence.lastDetectionTime ∧
      (observe 100 5 initPresence 10 50).1.personDetected = true) :=
  ⟨by norm_num [observe, initPresence],
   (C9_presence_events 100 5).1 initPresence 10 50
     (by norm_num [observe, initPresence])⟩

/-- C10: catalog construction is last-write-wins on duplicate extracted
notes (the binding of note `n` is the LAST processed filename whose
extracted note is `n`); duplicates are never rejected or reported (the
unmapped list is exactly the filenames with no extractable note); and
extraction takes the first run of decimal digits of the filename with its
extension removed. -/
theorem C10_catalog_last_write_wins :
    (∀ (files : List String) (n : Nat),
        alistGet n (create_note_mapping files).1 =
          (files.filter fun f =>
            decide (extract_note_from_filename f = some n)).getLast?) ∧
    (∀ files : List String,
        (create_note_mapping files).2 =
          files.filter fun f =>
            decide (extract_note_from_filename f = none)) ∧
    alistGet 60 (create_note_mapping ["60a.mp3", "60b.mp3"]).1 =
      some "60b.mp3" ∧
    extract_note_from_filename "07_intro9.mp3" = some 7 ∧
    extract_note_from_filename "track.123" = none := by
  refine ⟨?_, ?_, by decide, by decide, by decide⟩
  · intro files n
    have h := noteMappingLoop_lookup n files ([], [])
    unfold create_note_mapping
    rw [h]
    exact Option.or_none
  · intro files
    have h := noteMappingLoop_unmapped files ([], [])
    simpa [create_note_mapping] using h

/-! ## The idle-timer invariant (C2) -/

theorem armedIffEmpty_reset (s : SchedState) :
    armedIffEmpty (reset_empty_queue_timer s) := by
  unfold armedIffEmpty reset_empty_queue_timer
  simp

theorem schedInv_init (now₀ : ℚ) : SchedInv (initState now₀) := by
  refine ⟨armedIffEmpty_reset _, ?_, ?_, rfl⟩ <;>
    simp [initState, reset_empty_queue_timer]

theorem schedInv_step (cfg : SchedConfig) (s : SchedState) (op : SchedOp)
    (hport : cfg.midiPortAvailable = true) (htame : tame op = true)
    (h : SchedInv s) : SchedInv (step cfg s op) := by
  obtain ⟨harm, hdel, hplay, hfroz⟩ := h
  have hq0 : (0 : Int) ≤ s.queuedCount := le_trans (Int.ofNat_nonneg _) hdel
  have hp0 : (0 : Int) ≤ s.playingCount := le_trans (Int.ofNat_nonneg _) hplay
  unfold step
  rw [if_neg (by simp [hfroz])]
  cases op with
  | enqueue pick now =>
      rcases queue_random_track_cases cfg pick now s with hc | ⟨hlt, trackNote, hc⟩
      · simp only [hc]; exact ⟨harm, hdel, hplay, hfroz⟩
      · simp only [hc]
        refine ⟨armedIffEmpty_reset _, ?_, ?_, ?_⟩
        · rw [(reset_other_fields _).2.2.2.1, (reset_other_fields _).1]
          dsimp only
          simp only [List.length_append, List.length_singleton]
          omega
        · rw [(reset_other_fields _).2.2.1, (reset_other_fields _).2.1]
          exact hplay
        · rw [(reset_other_fields _).2.2.2.2.2]
          exact hfroz
  | delayFire trackNote now pulseOk =>
      have hok : pulseOk = true := htame
      subst hok
      dsimp only
      split
      · rename_i hmem
        have hlen1 : 0 < s.delayTimers.length := List.length_pos_of_mem hmem
        have hq1 : (1 : Int) ≤ s.queuedCount :=
          le_trans (by exact_mod_cast hlen1) hdel
        have harmF : s.emptyQueueTimer = false := by
          cases hb : s.emptyQueueTimer
          · rfl
          · have := (harm.mp hb).1
            omega
        refine ⟨?_, ?_, ?_, ?_⟩
        · unfold armedIffEmpty
          rw [trigger_track_armed cfg trackNote now true _ hport,
            trigger_track_queued, trigger_track_playing_true cfg trackNote now _
              hport]
          dsimp only
          rw [harmF]
          split_ifs <;> simp <;> omega
        · rw [trigger_track_delay, trigger_track_queued]
          dsimp only
          rw [List.length_erase_of_mem hmem]
          omega
        · rw [trigger_track_tracks_true cfg trackNote now _ hport,
            trigger_track_playing_true cfg trackNote now _ hport]
          dsimp only
          have hins := alistInsert_length_le trackNote
            ((alistGet trackNote cfg.noteToFileMap).getD "Unknown", now)
            s.playingTracks
          omega
        · rw [trigger_track_frozen]
          exact hfroz
      · exact ⟨harm, hdel, hplay, hfroz⟩
  | cleanupFire trackNote =>
      dsimp only
      split
      · rename_i hmem
        by_cases hsome : (alistGet trackNote s.playingTracks).isSome = true
        · have hlt := alistErase_length_lt hsome
          have hp1 : (1 : Int) ≤ s.playingCount := by
            have h1 : 0 < s.playingTracks.length :=
              lt_of_le_of_lt (Nat.zero_le _) hlt
            exact le_trans (by exact_mod_cast h1) hplay
          have harmF : s.emptyQueueTimer = false := by
            cases hb : s.emptyQueueTimer
            · rfl
            · have := (harm.mp hb).2
              omega
          obtain ⟨e₁, e₂, e₃, e₄, e₅, e₆, e₇⟩ := track_finished_some
            { s with cleanupTimers := s.cleanupTimers.erase trackNote }
            trackNote hsome
          refine ⟨?_, ?_, ?_, ?_⟩
          · unfold armedIffEmpty
            rw [e₇, e₂, e₃]
            dsimp only
            split_ifs with hcond
            · simp [hcond]
            · rw [harmF]
              simpa using hcond
          · rw [e₅, e₃]
            exact hdel
          · rw [e₁, e₂]
            dsimp only
            omega
          · rw [e₆]
            exact hfroz
        · rw [track_finished_none
            { s with cleanupTimers := s.cleanupTimers.erase trackNote }
            trackNote (by simpa using hsome)]
          exact ⟨harm, hdel, hplay, hfroz⟩
      · exact ⟨harm, hdel, hplay, hfroz⟩
  | idleFire => simp [tame] at htame
  | closeOp => simp [tame] at htame

theorem schedInv_run (cfg : SchedConfig) (hport : cfg.midiPortAvailable = true) :
    ∀ (ops : List SchedOp) (s : SchedState),
      (∀ op ∈ ops, tame op = true) → SchedInv s → SchedInv (run cfg s ops) := by
  intro ops
  induction ops with
  | nil => intro s _ hs; exact hs
  | cons op rest ih =>
      intro s hops hs
      exact ih (step cfg s op)
        (fun o ho => hops o (List.mem_cons_of_mem op ho))
        (schedInv_step cfg s op hport (hops op (List.mem_cons_self op rest)) hs)

/-- C2 counterexample: enqueue note 60, then let its delay timer fire with a
FAILING pulse.  The rollback leaves `queuedCount = 0` and
`playingCount = 0`, yet the idle timer is disarmed (the failure handler
never calls `_reset_empty_queue_timer`), refuting the claimed iff
"including after a failed pulse whose state mutation was rolled back". -/
theorem C2_counterexample_failed_pulse :
    (run cfgAB (initState 0)
        [SchedOp.enqueue 0 0, SchedOp.delayFire 60 1 false]).queuedCount = 0 ∧
    (run cfgAB (initState 0)
        [SchedOp.enqueue 0 0, SchedOp.delayFire 60 1 false]).playingCount = 0 ∧
    (run cfgAB (initState 0)
        [SchedOp.enqueue 0 0, SchedOp.delayFire 60 1 false]).emptyQueueTimer
      = false := by
  decide

/-- C2 (amended): after every completed Enqueue, successful TriggerNow
(pulse succeeds) and MarkFinished — i.e., along every trace of such
events with the MIDI port open — the idle timer is armed iff
`queuedCount = 0 ∧ playingCount = 0`.  After a TriggerNow whose pulse
failed and was rolled back, the timer can be left disarmed with the
state empty (see the counterexample), so failed pulses are excluded. -/
theorem C2_idle_timer_iff (cfg : SchedConfig) (now₀ : ℚ) (ops : List SchedOp)
    (hport : cfg.midiPortAvailable = true)
    (hops : ∀ op ∈ ops, tame op = true) :
    armedIffEmpty (run cfg (initState now₀) ops) :=
  (schedInv_run cfg hport ops (initState now₀) hops (schedInv_init now₀)).armed

theorem C2_idle_timer_iff_witness :
    cfgAB.midiPortAvailable = true ∧
    (∀ op ∈ [SchedOp.enqueue 0 0], tame op = true) ∧
    armedIffEmpty (run cfgAB (initState 0) [SchedOp.enqueue 0 0]) := by
  have hops : ∀ op ∈ [SchedOp.enqueue 0 0], tame op = true := by
    intro op hop
    rw [List.mem_singleton] at hop
    subst hop
    rfl
  exact ⟨rfl, hops, C2_idle_timer_iff cfgAB 0 [SchedOp.enqueue 0 0] rfl hops⟩

/-! ## Retention of a zero-duration playing track (C7) -/

theorem note61_retained_step (s : SchedState) (op : SchedOp)
    (hop : ∀ t : ℚ, op ≠ SchedOp.delayFire 61 t false)
    (h₁ : (alistGet 61 s.playingTracks).isSome = true)
    (h₂ : 61 ∉ s.cleanupTimers) :
    (alistGet 61 (step cfgAB s op).playingTracks).isSome = true ∧
      61 ∉ (step cfgAB s op).cleanupTimers := by
  unfold step
  split
  · exact ⟨h₁, h₂⟩
  cases op with
  | enqueue pick now =>
      rcases queue_random_track_cases cfgAB pick now s with hc | ⟨hlt, trackNote, hc⟩
      · simp only [hc]; exact ⟨h₁, h₂⟩
      · simp only [hc]
        rw [(reset_other_fields _).2.2.1, (reset_other_fields _).2.2.2.2.1]
        exact ⟨h₁, h₂⟩
  | delayFire trackNote now pulseOk =>
      dsimp only
      split
      · rename_i hmem
        by_cases hn : trackNote = 61
        · subst hn
          cases pulseOk with
          | false => exact absurd rfl (hop now)
          | true =>
              refine ⟨?_, ?_⟩
              · rw [trigger_track_tracks_true cfgAB 61 now _ rfl,
                  alistGet_insert_self]
                rfl
              · rw [trigger_track_cleanup_true cfgAB 61 now _ rfl]
                have hd : durationOf cfgAB 61 = 0 := rfl
                rw [hd, if_neg (lt_irrefl 0)]
                exact h₂
        · cases pulseOk with
          | true =>
              refine ⟨?_, ?_⟩
              · rw [trigger_track_tracks_true cfgAB trackNote now _ rfl,
                  alistGet_insert_ne hn]
                exact h₁
              · rw [trigger_track_cleanup_true cfgAB trackNote now _ rfl]
                split_ifs
                · intro hcon
                  rcases List.mem_append.mp hcon with hc | hc
                  · exact h₂ hc
                  · exact hn (List.mem_singleton.mp hc).symm
                · exact h₂
          | false =>
              refine ⟨?_, ?_⟩
              · rw [trigger_track_tracks_false cfgAB trackNote now _ rfl,
                  alistGet_erase_ne hn]
                exact h₁
              · rw [trigger_track_cleanup_false cfgAB trackNote now _ rfl]
                exact h₂
      · exact ⟨h₁, h₂⟩
  | cleanupFire trackNote =>
      dsimp only
      split
      · rename_i hmem
        have hn : trackNote ≠ 61 := fun he => h₂ (he ▸ hmem)
        by_cases hsome : (alistGet trackNote s.playingTracks).isSome = true
        · obtain ⟨e₁, _, _, e₄, _, _, _⟩ := track_finished_some
            { s with cleanupTimers := s.cleanupTimers.erase trackNote }
            trackNote hsome
          refine ⟨?_, ?_⟩
          · rw [e₁]
            dsimp only
            rw [alistGet_erase_ne hn]
            exact h₁
          · rw [e₄]
            exact fun hcon => h₂ (List.mem_of_mem_erase hcon)
        · rw [track_finished_none
            { s with cleanupTimers := s.cleanupTimers.erase trackNote }
            trackNote (by simpa using hsome)]
          exact ⟨h₁, fun hcon => h₂ (List.mem_of_mem_erase hcon)⟩
      · exact ⟨h₁, h₂⟩
  | idleFire =>
      dsimp only
      split
      · refine ⟨?_, ?_⟩
        · rw [(auto_queue_track_fields cfgAB s).2.2.1]
          exact h₁
        · rw [(auto_queue_track_fields cfgAB s).2.2.2.2.1]
          exact h₂
      · exact ⟨h₁, h₂⟩
  | closeOp =>
      refine ⟨?_, ?_⟩
      · rw [(close_fields cfgAB s).2.2.1]
        exact h₁
      · rw [(close_fields cfgAB s).2.2.2.2.1]
        exact h₂

theorem note61_retained_run :
    ∀ (ops : List SchedOp) (s : SchedState),
      (∀ op ∈ ops, ∀ t : ℚ, op ≠ SchedOp.delayFire 61 t false) →
      (alistGet 61 s.playingTracks).isSome = true →
      61 ∉ s.cleanupTimers →
      (alistGet 61 (run cfgAB s ops).playingTracks).isSome = true ∧
        61 ∉ (run cfgAB s ops).cleanupTimers := by
  intro ops
  induction ops with
  | nil => intro s _ h₁ h₂; exact ⟨h₁, h₂⟩
  | cons op rest ih =>
      intro s hops h₁ h₂
      have hstep := note61_retained_step s op
        (hops op (List.mem_cons_self op rest)) h₁ h₂
      exact ih (step cfgAB s op)
        (fun o ho => hops o (List.mem_cons_of_mem op ho)) hstep.1 hstep.2

/-- C7: a cleanup timer is armed by a successful trigger iff the catalog
duration of the note is positive (unknown filenames resolve to duration
0); in the spec scenario (catalog `{60 ↦ (a, 10), 61 ↦ (b, 0)}`,
enqueue + trigger of note 61) the note is playing, no cleanup timer is
armed, and note 61 stays in `playing_tracks` under every continuation of
the trace — including `close` — except a re-trigger of note 61 whose
pulse fails, whose rollback is the only code path that deletes the
entry. -/
theorem C7_zero_duration_never_finishes :
    (∀ (cfg : SchedConfig) (trackNote : Nat) (now : ℚ) (s : SchedState),
        cfg.midiPortAvailable = true →
        (trigger_track cfg trackNote now true s).cleanupTimers =
          (if 0 < durationOf cfg trackNote then s.cleanupTimers ++ [trackNote]
           else s.cleanupTimers)) ∧
    alistGet 61 scenarioState.playingTracks = some ("b", 1) ∧
    scenarioState.cleanupTimers = [] ∧
    (∀ rest : List SchedOp,
        (∀ op ∈ rest, ∀ t : ℚ, op ≠ SchedOp.delayFire 61 t false) →
        (alistGet 61 (run cfgAB scenarioState rest).playingTracks).isSome
          = true) := by
  refine ⟨trigger_track_cleanup_true, by decide, by decide, ?_⟩
  intro rest hrest
  exact (note61_retained_run rest scenarioState hrest (by decide) (by decide)).1

theorem C7_zero_duration_never_finishes_witness :
    (∀ op ∈ [SchedOp.cleanupFire 61, SchedOp.closeOp], ∀ t : ℚ,
        op ≠ SchedOp.delayFire 61 t false) ∧
    (alistGet 61 (run cfgAB scenarioState
        [SchedOp.cleanupFire 61, SchedOp.closeOp]).playingTracks).isSome
      = true := by
  have hops : ∀ op ∈ [SchedOp.cleanupFire 61, SchedOp.closeOp], ∀ t : ℚ,
      op ≠ SchedOp.delayFire 61 t false := by
    intro op hop t
    rcases List.mem_cons.mp hop with rfl | hop'
    · simp
    · rcases List.mem_singleton.mp hop' with rfl
      simp
  exact ⟨hops, C7_zero_duration_never_finishes.2.2.2
    [SchedOp.cleanupFire 61, SchedOp.closeOp] hops⟩

end Meridian
